import Mathlib

/-!
Verification of the recursive-descent parser in `src/parse.rs` of the lust
repository.  The parser is embedded shallowly: the Rust functions returning
`Option<(Node, usize)>` become Lean functions returning `PRes Node`, where
`PRes.ok v next` is `Some((v, next))`, `PRes.none` is `None`,
`PRes.panic` records a Rust out-of-bounds indexing panic
(`tokens[i]` with `i >= tokens.len()`), and `PRes.fail` is the
out-of-recursion-budget marker of the fuel-based embedding (the Rust code has
no such outcome; theorems about results other than `PRes.fail` describe the
Rust behavior).  Diagnostic text printed via `println!` goes to stdout in the
Rust code and is not part of any return value, so it is not modelled — but the
token access `tokens[next_index].loc` inside those `println!` calls is
modelled, because it panics when the index is out of bounds.
-/

namespace Lust

/-- Modelled from the spec: `lex.rs` (module `crate::lex`) is not under
`src/`; spec §3/§6 fix the token kinds as Keyword, Syntax, Identifier,
Number. -/
inductive TokenKind where
  | Keyword
  | Syntax
  | Identifier
  | Number
deriving DecidableEq, Repr

/-- Modelled from the spec: source-location metadata of a token (from
`lex.rs`, not under `src/`); §6 only requires a location usable for
diagnostics. -/
structure Location where
  line : Nat
  col : Nat
deriving DecidableEq, Repr

/-- Modelled from the spec: a classified lexeme with a kind, a literal
textual value and a source location (`lex.rs` is not under `src/`). -/
structure Token where
  kind : TokenKind
  value : String
  loc : Location
deriving DecidableEq, Repr

/-- Modelled from the spec: `Location::debug` of `lex.rs` (not under `src/`)
renders the diagnostic as `"<rendered source context>\n<message>"` (§6); the
exact rendering of the context is not fixed by the spec, only that it is a
deterministic function of the source buffer, the location and the message. -/
def Location.debug (loc : Location) (raw : List Char) (msg : String) : String :=
  String.mk raw ++ " line " ++ toString loc.line ++ " col " ++ toString loc.col
    ++ "\n" ++ msg

/-- Embeds `enum Literal` (parse.rs lines 3-7). -/
inductive Literal where
  | Identifier (token : Token)
  | Number (token : Token)
deriving DecidableEq, Repr

/-- Embeds `enum Expression` together with the structs `FunctionCall` and
`BinaryOperation` it wraps (parse.rs lines 9-27); the struct fields are
inlined as constructor arguments in source order. -/
inductive Expression where
  | FunctionCall (name : Token) (arguments : List Expression)
  | BinaryOperation (operator : Token) (left : Expression) (right : Expression)
  | Literal (lit : Literal)

/-- Embeds `enum Statement` together with the structs `FunctionDeclaration`,
`If`, `Local`, `Return` it wraps (parse.rs lines 29-60); the struct fields are
inlined as constructor arguments in source order. -/
inductive Statement where
  | Expression (expression : Expression)
  | If (test : Expression) (body : List Statement)
  | FunctionDeclaration (name : Token) (parameters : List Token)
      (body : List Statement)
  | Return (expression : Expression)
  | Local (name : Token) (expression : Expression)

/-- Embeds `pub type AST = Vec<Statement>` (parse.rs line 62). -/
abbrev AST := List Statement

/-- Result of one rule parser: `PRes.ok v next` embeds `Some((v, next))`,
`PRes.none` embeds `None`, `PRes.panic` embeds a Rust out-of-bounds indexing
panic, and `PRes.fail` is the fuel-exhaustion marker of the embedding. -/
inductive PRes (α : Type) where
  | ok (val : α) (next : Nat)
  | none
  | panic
  | fail
deriving DecidableEq, Repr

/-- Whether a `PRes` is a success (`res.is_some()` in the source). -/
def PRes.isOk {α : Type} : PRes α → Bool
  | PRes.ok _ _ => true
  | _ => false

/-- Embeds the `println!("{}", tokens[i].loc.debug(..)); return None;`
pattern of the source: the printed text goes to stdout and is dropped, but
the indexing `tokens[i]` itself is a Rust panic when `i` is out of
bounds. -/
def diagNone {α : Type} (tokens : List Token) (index : Nat) : PRes α :=
  if index < tokens.length then PRes.none else PRes.panic

/-- Embeds `expect_keyword` (parse.rs lines 64-71). -/
def expectKeyword (tokens : List Token) (index : Nat) (value : String) : Bool :=
  match tokens.get? index with
  | Option.some t => t.kind == TokenKind.Keyword && t.value == value
  | Option.none => false

/-- Embeds `expect_syntax` (parse.rs lines 73-80); renamed to avoid a Lean
keyword clash. -/
def expectSyntaxTok (tokens : List Token) (index : Nat) (value : String) : Bool :=
  match tokens.get? index with
  | Option.some t => t.kind == TokenKind.Syntax && t.value == value
  | Option.none => false

/-- Embeds `expect_identifier` (parse.rs lines 82-89). -/
def expectIdentifier (tokens : List Token) (index : Nat) : Bool :=
  match tokens.get? index with
  | Option.some t => t.kind == TokenKind.Identifier
  | Option.none => false

/-- Embeds `expect_number` (parse.rs lines 91-98). -/
def expectNumber (tokens : List Token) (index : Nat) : Bool :=
  match tokens.get? index with
  | Option.some t => t.kind == TokenKind.Number
  | Option.none => false

/-- Embeds the non-exhaustive `match tokens[i].kind` of parse.rs lines
105-108 and 155-158, whose only arms are `Number` and `Identifier`;
`Option.none` stands for the (statically rejected in Rust) missing arms and
is mapped to `PRes.panic` by the callers. -/
def literalExpr (t : Token) : Option Expression :=
  match t.kind with
  | TokenKind.Number => Option.some (Expression.Literal (Literal.Number t))
  | TokenKind.Identifier =>
      Option.some (Expression.Literal (Literal.Identifier t))
  | _ => Option.none

mutual

/-- Embeds `parse_expression` (parse.rs lines 100-162).  Note the source
guard on line 101 is `!expect_identifier(..) || expect_number(..)` and the
right-operand guard on line 150 is
`!expect_identifier(..) || !expect_number(..)`, both as written. -/
def parseExpression (fuel : Nat) (tokens : List Token) (index : Nat) :
    PRes Expression :=
  match fuel with
  | 0 => PRes.fail
  | Nat.succ f =>
    if !expectIdentifier tokens index || expectNumber tokens index then
      PRes.none
    else
      match tokens.get? index with
      | Option.none => PRes.panic
      | Option.some t =>
        match literalExpr t with
        | Option.none => PRes.panic
        | Option.some left =>
          if expectSyntaxTok tokens (index + 1) "(" then
            match argsLoop f tokens (index + 2) [] with
            | PRes.ok arguments parenPos =>
                PRes.ok (Expression.FunctionCall t arguments) (parenPos + 1)
            | PRes.none => PRes.none
            | PRes.panic => PRes.panic
            | PRes.fail => PRes.fail
          else
            match tokens.get? (index + 1) with
            | Option.none => PRes.panic
            | Option.some op =>
              if op.kind != TokenKind.Syntax then PRes.none
              else
                if !expectIdentifier tokens (index + 2)
                    || !expectNumber tokens (index + 2) then
                  diagNone tokens (index + 2)
                else
                  match tokens.get? (index + 2) with
                  | Option.none => PRes.panic
                  | Option.some rt =>
                    match literalExpr rt with
                    | Option.none => PRes.panic
                    | Option.some right =>
                      PRes.ok
                        (Expression.BinaryOperation op left right)
                        (index + 3)
termination_by structural fuel

/-- Embeds the argument-collection `while !expect_syntax(.., ")")` loop of
`parse_expression` (parse.rs lines 115-134); `PRes.ok args parenPos` returns
the collected arguments and the position of the closing parenthesis (the
caller skips past it, line 136). -/
def argsLoop (fuel : Nat) (tokens : List Token) (next_index : Nat)
    (arguments : List Expression) : PRes (List Expression) :=
  match fuel with
  | 0 => PRes.fail
  | Nat.succ f =>
    if expectSyntaxTok tokens next_index ")" then
      PRes.ok arguments next_index
    else
      if arguments.length > 0 then
        if !expectSyntaxTok tokens next_index "," then
          diagNone tokens next_index
        else
          match parseExpression f tokens (next_index + 1) with
          | PRes.ok arg j => argsLoop f tokens j (arguments ++ [arg])
          | PRes.none => diagNone tokens (next_index + 1)
          | PRes.panic => PRes.panic
          | PRes.fail => PRes.fail
      else
        match parseExpression f tokens next_index with
        | PRes.ok arg j => argsLoop f tokens j (arguments ++ [arg])
        | PRes.none => diagNone tokens next_index
        | PRes.panic => PRes.panic
        | PRes.fail => PRes.fail
termination_by structural fuel

end

/-- Embeds the parameter-collection `while !expect_syntax(.., ")")` loop of
`parse_function` (parse.rs lines 183-195).  As written, the source pushes
`tokens[next_index]` without ever advancing `next_index` past the pushed
parameter; only the comma branch advances. -/
def paramsLoop (fuel : Nat) (tokens : List Token) (next_index : Nat)
    (parameters : List Token) : PRes (List Token) :=
  match fuel with
  | 0 => PRes.fail
  | Nat.succ f =>
    if expectSyntaxTok tokens next_index ")" then
      PRes.ok parameters next_index
    else
      if parameters.length > 0 then
        if !expectSyntaxTok tokens next_index "," then
          diagNone tokens next_index
        else
          match tokens.get? (next_index + 1) with
          | Option.some t =>
              paramsLoop f tokens (next_index + 1) (parameters ++ [t])
          | Option.none => PRes.panic
      else
        match tokens.get? next_index with
        | Option.some t => paramsLoop f tokens next_index (parameters ++ [t])
        | Option.none => PRes.panic
termination_by structural fuel

/-- One iteration of the parameter-collection loop of `parse_function`
(parse.rs lines 184-195), with the loop-state transition made explicit:
`again index parameters` means the loop body completed one iteration and
continues with that cursor and that parameter list. -/
inductive ParamsStep where
  | exit (parameters : List Token) (index : Nat)
  | again (index : Nat) (parameters : List Token)
  | bail
  | oob
deriving DecidableEq, Repr

/-- The body of the parameter-collection loop of `parse_function` (parse.rs
lines 184-195) as a single step on the loop state `(next_index,
parameters)`. -/
def paramsStep (tokens : List Token) (next_index : Nat)
    (parameters : List Token) : ParamsStep :=
  if expectSyntaxTok tokens next_index ")" then
    ParamsStep.exit parameters next_index
  else
    if parameters.length > 0 then
      if !expectSyntaxTok tokens next_index "," then
        (if next_index < tokens.length then ParamsStep.bail else ParamsStep.oob)
      else
        match tokens.get? (next_index + 1) with
        | Option.some t => ParamsStep.again (next_index + 1) (parameters ++ [t])
        | Option.none => ParamsStep.oob
    else
      match tokens.get? next_index with
      | Option.some t => ParamsStep.again next_index (parameters ++ [t])
      | Option.none => ParamsStep.oob

/-- Embeds `parse_return` (parse.rs lines 221-243). -/
def parseReturn (fuel : Nat) (tokens : List Token) (index : Nat) :
    PRes Statement :=
  match fuel with
  | 0 => PRes.fail
  | Nat.succ f =>
    if !expectKeyword tokens index "return" then PRes.none
    else
      match parseExpression f tokens (index + 1) with
      | PRes.none => diagNone tokens (index + 1)
      | PRes.panic => PRes.panic
      | PRes.fail => PRes.fail
      | PRes.ok expr j =>
        if !expectSyntaxTok tokens j ";" then diagNone tokens j
        else PRes.ok (Statement.Return expr) (j + 1)

/-- Embeds `parse_local` (parse.rs lines 245-277). -/
def parseLocal (fuel : Nat) (tokens : List Token) (index : Nat) :
    PRes Statement :=
  match fuel with
  | 0 => PRes.fail
  | Nat.succ f =>
    if !expectKeyword tokens index "local" then PRes.none
    else
      if !expectIdentifier tokens (index + 1) then diagNone tokens (index + 1)
      else
        match tokens.get? (index + 1) with
        | Option.none => PRes.panic
        | Option.some name =>
          match parseExpression f tokens (index + 2) with
          | PRes.none => diagNone tokens (index + 2)
          | PRes.panic => PRes.panic
          | PRes.fail => PRes.fail
          | PRes.ok expr j =>
            if !expectSyntaxTok tokens j ";" then diagNone tokens j
            else PRes.ok (Statement.Local name expr) (j + 1)

/-- Embeds `parse_expression_statement` (parse.rs lines 318-336). -/
def parseExpressionStatement (fuel : Nat) (tokens : List Token) (index : Nat) :
    PRes Statement :=
  match fuel with
  | 0 => PRes.fail
  | Nat.succ f =>
    match parseExpression f tokens index with
    | PRes.none => diagNone tokens index
    | PRes.panic => PRes.panic
    | PRes.fail => PRes.fail
    | PRes.ok expr j =>
      if !expectSyntaxTok tokens j ";" then diagNone tokens j
      else PRes.ok (Statement.Expression expr) (j + 1)

mutual

/-- Embeds `parse_function` (parse.rs lines 164-219). -/
def parseFunction (fuel : Nat) (tokens : List Token) (index : Nat) :
    PRes Statement :=
  match fuel with
  | 0 => PRes.fail
  | Nat.succ f =>
    if !expectKeyword tokens index "function" then PRes.none
    else
      if !expectIdentifier tokens (index + 1) then diagNone tokens (index + 1)
      else
        match tokens.get? (index + 1) with
        | Option.none => PRes.panic
        | Option.some name =>
          if !expectSyntaxTok tokens (index + 2) "(" then
            diagNone tokens (index + 2)
          else
            match paramsLoop f tokens (index + 3) [] with
            | PRes.ok parameters parenPos =>
              (match bodyLoop f tokens (parenPos + 1) [] with
               | PRes.ok body endPos =>
                   PRes.ok
                     (Statement.FunctionDeclaration name parameters body)
                     (endPos + 1)
               | PRes.none => PRes.none
               | PRes.panic => PRes.panic
               | PRes.fail => PRes.fail)
            | PRes.none => PRes.none
            | PRes.panic => PRes.panic
            | PRes.fail => PRes.fail
termination_by structural fuel

/-- Embeds the statement-collection `while !expect_keyword(.., "end")` loops
of `parse_function` (parse.rs lines 200-210) and `parse_if` (parse.rs lines
301-311), which are syntactically identical up to the diagnostic message;
`PRes.ok body endPos` returns the collected statements and the position of
the `end` keyword (the caller skips past it). -/
def bodyLoop (fuel : Nat) (tokens : List Token) (next_index : Nat)
    (statements : List Statement) : PRes (List Statement) :=
  match fuel with
  | 0 => PRes.fail
  | Nat.succ f =>
    if expectKeyword tokens next_index "end" then
      PRes.ok statements next_index
    else
      match parseStatement f tokens next_index with
      | PRes.ok stmt j => bodyLoop f tokens j (statements ++ [stmt])
      | PRes.none => diagNone tokens next_index
      | PRes.panic => PRes.panic
      | PRes.fail => PRes.fail
termination_by structural fuel

/-- Embeds `parse_if` (parse.rs lines 279-316).  Note the `then`-keyword
check on lines 294-296 returns `None` silently (no diagnostic). -/
def parseIf (fuel : Nat) (tokens : List Token) (index : Nat) :
    PRes Statement :=
  match fuel with
  | 0 => PRes.fail
  | Nat.succ f =>
    if !expectKeyword tokens index "if" then PRes.none
    else
      match parseExpression f tokens (index + 1) with
      | PRes.none => diagNone tokens (index + 1)
      | PRes.panic => PRes.panic
      | PRes.fail => PRes.fail
      | PRes.ok test j =>
        if !expectKeyword tokens j "then" then PRes.none
        else
          match bodyLoop f tokens (j + 1) [] with
          | PRes.ok body endPos =>
              PRes.ok (Statement.If test body) (endPos + 1)
          | PRes.none => PRes.none
          | PRes.panic => PRes.panic
          | PRes.fail => PRes.fail
termination_by structural fuel

/-- Embeds `parse_statement` (parse.rs lines 338-348): the rule parsers are
tried in the fixed order if, expression-statement, return, function, local,
and the first `Some` is returned; a panic aborts everything. -/
def parseStatement (fuel : Nat) (tokens : List Token) (index : Nat) :
    PRes Statement :=
  match fuel with
  | 0 => PRes.fail
  | Nat.succ f =>
    match parseIf f tokens index with
    | PRes.none =>
      match parseExpressionStatement f tokens index with
      | PRes.none =>
        match parseReturn f tokens index with
        | PRes.none =>
          match parseFunction f tokens index with
          | PRes.none => parseLocal f tokens index
          | r => r
        | r => r
      | r => r
    | r => r
termination_by structural fuel

end

/-- Outcome of the top-level `parse` (parse.rs lines 350-366):
`ok ast final` records the produced AST and the final value of the cursor
variable `index` when the driver loop exits; `err msg` embeds
`Err(tokens[index].loc.debug(raw, "Invalid token while parsing:"))`;
`panic` records an out-of-bounds indexing panic; `fail` is the
fuel-exhaustion marker of the embedding. -/
inductive ParseResult where
  | ok (ast : AST) (final : Nat)
  | err (msg : String)
  | panic
  | fail

/-- Whether a `ParseResult` is the `Err` outcome. -/
def ParseResult.isErr : ParseResult → Bool
  | ParseResult.err _ => true
  | _ => false

/-- Whether a `ParseResult` is the `Ok` outcome. -/
def ParseResult.isOk : ParseResult → Bool
  | ParseResult.ok _ _ => true
  | _ => false

/-- Embeds the driver loop of `parse` (parse.rs lines 352-365):
`while index < tokens.len()`, appending each statement produced by
`parse_statement` and advancing the cursor, returning `Err` at the first
position where no production matches. -/
def parseLoop (fuel : Nat) (raw : List Char) (tokens : List Token)
    (index : Nat) (ast : AST) : ParseResult :=
  match fuel with
  | 0 => ParseResult.fail
  | Nat.succ f =>
    if index < tokens.length then
      match parseStatement f tokens index with
      | PRes.ok stmt next => parseLoop f raw tokens next (ast ++ [stmt])
      | PRes.none =>
        match tokens.get? index with
        | Option.some t =>
            ParseResult.err (t.loc.debug raw "Invalid token while parsing:")
        | Option.none => ParseResult.panic
      | PRes.panic => ParseResult.panic
      | PRes.fail => ParseResult.fail
    else
      ParseResult.ok ast index

/-- Embeds `pub fn parse` (parse.rs lines 350-366). -/
def parse (fuel : Nat) (raw : List Char) (tokens : List Token) : ParseResult :=
  parseLoop fuel raw tokens 0 []

/-- A token at line 0, column 0 (locations are irrelevant to parsing
decisions; they only feed diagnostics). -/
def mkTok (k : TokenKind) (v : String) : Token :=
  { kind := k, value := v, loc := { line := 0, col := 0 } }

/-- An Identifier token. -/
def idT (v : String) : Token := mkTok TokenKind.Identifier v

/-- A Number token. -/
def numT (v : String) : Token := mkTok TokenKind.Number v

/-- A Keyword token. -/
def kwT (v : String) : Token := mkTok TokenKind.Keyword v

/-- A Syntax token. -/
def synT (v : String) : Token := mkTok TokenKind.Syntax v

theorem expectKeyword_lt {tokens : List Token} {index : Nat} {v : String}
    (h : expectKeyword tokens index v = true) : index < tokens.length := by
  by_contra hn
  rw [expectKeyword, List.get?_eq_none.mpr (Nat.le_of_not_lt hn)] at h
  cases h

theorem expectSyntaxTok_lt {tokens : List Token} {index : Nat} {v : String}
    (h : expectSyntaxTok tokens index v = true) : index < tokens.length := by
  by_contra hn
  rw [expectSyntaxTok, List.get?_eq_none.mpr (Nat.le_of_not_lt hn)] at h
  cases h

theorem expectIdentifier_lt {tokens : List Token} {index : Nat}
    (h : expectIdentifier tokens index = true) : index < tokens.length := by
  by_contra hn
  rw [expectIdentifier, List.get?_eq_none.mpr (Nat.le_of_not_lt hn)] at h
  cases h

theorem expectNumber_lt {tokens : List Token} {index : Nat}
    (h : expectNumber tokens index = true) : index < tokens.length := by
  by_contra hn
  rw [expectNumber, List.get?_eq_none.mpr (Nat.le_of_not_lt hn)] at h
  cases h

theorem diagNone_ne_ok {α : Type} {tokens : List Token} {index : Nat}
    {v : α} {j : Nat} : diagNone tokens index ≠ PRes.ok v j := by
  rw [diagNone]
  split <;> intro h <;> cases h

theorem parseExpression_ok_bounds_step {f : Nat} {tokens : List Token}
    (ihAL : ∀ index args res j, argsLoop f tokens index args = PRes.ok res j →
      index ≤ j ∧ j < tokens.length) :
    ∀ index e j, parseExpression (Nat.succ f) tokens index = PRes.ok e j →
      index < j ∧ j ≤ tokens.length := by
  intro index e j h
  simp only [parseExpression] at h
  split at h
  · cases h
  · split at h
    · cases h
    · split at h
      · cases h
      · split at h
        · split at h
          next arguments parenPos heq =>
            obtain ⟨h1, h2⟩ := ihAL _ _ _ _ heq
            cases h
            omega
          next => cases h
          next => cases h
          next => cases h
        · split at h
          · cases h
          · split at h
            · cases h
            · split at h
              · exact absurd h diagNone_ne_ok
              next hguard =>
                split at h
                · cases h
                · split at h
                  · cases h
                  · cases h
                    have hnum : expectNumber tokens (index + 2) = true := by
                      by_contra hc
                      exact hguard (by simp [Bool.not_eq_true] at hc; simp [hc])
                    have := expectNumber_lt hnum
                    omega

theorem argsLoop_ok_bounds_step {f : Nat} {tokens : List Token}
    (ihPE : ∀ index e j, parseExpression f tokens index = PRes.ok e j →
      index < j ∧ j ≤ tokens.length)
    (ihAL : ∀ index args res j, argsLoop f tokens index args = PRes.ok res j →
      index ≤ j ∧ j < tokens.length) :
    ∀ index args res j, argsLoop (Nat.succ f) tokens index args = PRes.ok res j →
      index ≤ j ∧ j < tokens.length := by
  intro index args res j h
  simp only [argsLoop] at h
  split at h
  next hparen =>
    cases h
    exact ⟨Nat.le_refl _, expectSyntaxTok_lt hparen⟩
  next =>
    split at h
    · split at h
      · exact absurd h diagNone_ne_ok
      · split at h
        next arg j2 heq =>
          obtain ⟨p1, p2⟩ := ihPE _ _ _ heq
          obtain ⟨q1, q2⟩ := ihAL _ _ _ _ h
          omega
        next => exact absurd h diagNone_ne_ok
        next => cases h
        next => cases h
    · split at h
      next arg j2 heq =>
        obtain ⟨p1, p2⟩ := ihPE _ _ _ heq
        obtain ⟨q1, q2⟩ := ihAL _ _ _ _ h
        omega
      next => exact absurd h diagNone_ne_ok
      next => cases h
      next => cases h

theorem paramsLoop_ok_bounds_step {f : Nat} {tokens : List Token}
    (ihPL : ∀ index ps res j, paramsLoop f tokens index ps = PRes.ok res j →
      index ≤ j ∧ j < tokens.length) :
    ∀ index ps res j, paramsLoop (Nat.succ f) tokens index ps = PRes.ok res j →
      index ≤ j ∧ j < tokens.length := by
  intro index ps res j h
  simp only [paramsLoop] at h
  split at h
  next hparen =>
    cases h
    exact ⟨Nat.le_refl _, expectSyntaxTok_lt hparen⟩
  next =>
    split at h
    · split at h
      · exact absurd h diagNone_ne_ok
      · split at h
        next t heq =>
          obtain ⟨q1, q2⟩ := ihPL _ _ _ _ h
          omega
        next => cases h
    · split at h
      next t heq =>
        obtain ⟨q1, q2⟩ := ihPL _ _ _ _ h
        omega
      next => cases h

theorem parseReturn_ok_bounds_step {f : Nat} {tokens : List Token}
    (ihPE : ∀ index e j, parseExpression f tokens index = PRes.ok e j →
      index < j ∧ j ≤ tokens.length) :
    ∀ index s j, parseReturn (Nat.succ f) tokens index = PRes.ok s j →
      index < j ∧ j ≤ tokens.length := by
  intro index s j h
  simp only [parseReturn] at h
  split at h
  · cases h
  · split at h
    · exact absurd h diagNone_ne_ok
    · cases h
    · cases h
    next expr j2 heq =>
      split at h
      · exact absurd h diagNone_ne_ok
      next hsemi =>
        cases h
        have hb : expectSyntaxTok tokens j2 ";" = true := by
          revert hsemi
          cases expectSyntaxTok tokens j2 ";" <;> simp
        have := expectSyntaxTok_lt hb
        have := ihPE _ _ _ heq
        omega

theorem parseLocal_ok_bounds_step {f : Nat} {tokens : List Token}
    (ihPE : ∀ index e j, parseExpression f tokens index = PRes.ok e j →
      index < j ∧ j ≤ tokens.length) :
    ∀ index s j, parseLocal (Nat.succ f) tokens index = PRes.ok s j →
      index < j ∧ j ≤ tokens.length := by
  intro index s j h
  simp only [parseLocal] at h
  split at h
  · cases h
  · split at h
    · exact absurd h diagNone_ne_ok
    · split at h
      · cases h
      · split at h
        · exact absurd h diagNone_ne_ok
        · cases h
        · cases h
        next expr j2 heq =>
          split at h
          · exact absurd h diagNone_ne_ok
          next hsemi =>
            cases h
            have hb : expectSyntaxTok tokens j2 ";" = true := by
              revert hsemi
              cases expectSyntaxTok tokens j2 ";" <;> simp
            have := expectSyntaxTok_lt hb
            have := ihPE _ _ _ heq
            omega

theorem parseExpressionStatement_ok_bounds_step {f : Nat} {tokens : List Token}
    (ihPE : ∀ index e j, parseExpression f tokens index = PRes.ok e j →
      index < j ∧ j ≤ tokens.length) :
    ∀ index s j, parseExpressionStatement (Nat.succ f) tokens index = PRes.ok s j →
      index < j ∧ j ≤ tokens.length := by
  intro index s j h
  simp only [parseExpressionStatement] at h
  split at h
  · exact absurd h diagNone_ne_ok
  · cases h
  · cases h
  next expr j2 heq =>
    split at h
    · exact absurd h diagNone_ne_ok
    next hsemi =>
      cases h
      have hb : expectSyntaxTok tokens j2 ";" = true := by
        revert hsemi
        cases expectSyntaxTok tokens j2 ";" <;> simp
      have := expectSyntaxTok_lt hb
      have := ihPE _ _ _ heq
      omega

theorem bodyLoop_ok_bounds_step {f : Nat} {tokens : List Token}
    (ihST : ∀ index s j, parseStatement f tokens index = PRes.ok s j →
      index < j ∧ j ≤ tokens.length)
    (ihBL : ∀ index sts res j, bodyLoop f tokens index sts = PRes.ok res j →
      index ≤ j ∧ j < tokens.length) :
    ∀ index sts res j, bodyLoop (Nat.succ f) tokens index sts = PRes.ok res j →
      index ≤ j ∧ j < tokens.length := by
  intro index sts res j h
  simp only [bodyLoop] at h
  split at h
  next hend =>
    cases h
    exact ⟨Nat.le_refl _, expectKeyword_lt hend⟩
  next =>
    split at h
    next stmt j2 heq =>
      obtain ⟨p1, p2⟩ := ihST _ _ _ heq
      obtain ⟨q1, q2⟩ := ihBL _ _ _ _ h
      omega
    next => exact absurd h diagNone_ne_ok
    next => cases h
    next => cases h

theorem parseFunction_ok_bounds_step {f : Nat} {tokens : List Token}
    (ihPL : ∀ index ps res j, paramsLoop f tokens index ps = PRes.ok res j →
      index ≤ j ∧ j < tokens.length)
    (ihBL : ∀ index sts res j, bodyLoop f tokens index sts = PRes.ok res j →
      index ≤ j ∧ j < tokens.length) :
    ∀ index s j, parseFunction (Nat.succ f) tokens index = PRes.ok s j →
      index < j ∧ j ≤ tokens.length := by
  intro index s j h
  simp only [parseFunction] at h
  split at h
  · cases h
  · split at h
    · exact absurd h diagNone_ne_ok
    · split at h
      · cases h
      · split at h
        · exact absurd h diagNone_ne_ok
        · split at h
          next parameters parenPos heqP =>
            split at h
            next body endPos heqB =>
              cases h
              obtain ⟨p1, p2⟩ := ihPL _ _ _ _ heqP
              obtain ⟨q1, q2⟩ := ihBL _ _ _ _ heqB
              omega
            next => cases h
            next => cases h
            next => cases h
          next => cases h
          next => cases h
          next => cases h

theorem parseIf_ok_bounds_step {f : Nat} {tokens : List Token}
    (ihPE : ∀ index e j, parseExpression f tokens index = PRes.ok e j →
      index < j ∧ j ≤ tokens.length)
    (ihBL : ∀ index sts res j, bodyLoop f tokens index sts = PRes.ok res j →
      index ≤ j ∧ j < tokens.length) :
    ∀ index s j, parseIf (Nat.succ f) tokens index = PRes.ok s j →
      index < j ∧ j ≤ tokens.length := by
  intro index s j h
  simp only [parseIf] at h
  split at h
  · cases h
  · split at h
    · exact absurd h diagNone_ne_ok
    · cases h
    · cases h
    next test j2 heq =>
      split at h
      · cases h
      · split at h
        next body endPos heqB =>
          cases h
          obtain ⟨p1, p2⟩ := ihPE _ _ _ heq
          obtain ⟨q1, q2⟩ := ihBL _ _ _ _ heqB
          omega
        next => cases h
        next => cases h
        next => cases h

theorem parseStatement_ok_bounds_step {f : Nat} {tokens : List Token}
    (ihIf : ∀ index s j, parseIf f tokens index = PRes.ok s j →
      index < j ∧ j ≤ tokens.length)
    (ihES : ∀ index s j, parseExpressionStatement f tokens index = PRes.ok s j →
      index < j ∧ j ≤ tokens.length)
    (ihRet : ∀ index s j, parseReturn f tokens index = PRes.ok s j →
      index < j ∧ j ≤ tokens.length)
    (ihFun : ∀ index s j, parseFunction f tokens index = PRes.ok s j →
      index < j ∧ j ≤ tokens.length)
    (ihLoc : ∀ index s j, parseLocal f tokens index = PRes.ok s j →
      index < j ∧ j ≤ tokens.length) :
    ∀ index s j, parseStatement (Nat.succ f) tokens index = PRes.ok s j →
      index < j ∧ j ≤ tokens.length := by
  intro index s j h
  simp only [parseStatement] at h
  split at h
  · split at h
    · split at h
      · split at h
        · exact ihLoc _ _ _ h
        · exact ihFun _ _ _ h
      · exact ihRet _ _ _ h
    · exact ihES _ _ _ h
  · exact ihIf _ _ _ h

theorem okBounds : ∀ fuel : Nat, ∀ tokens : List Token,
    ((∀ index e j, parseExpression fuel tokens index = PRes.ok e j →
        index < j ∧ j ≤ tokens.length)
  ∧ (∀ index args res j, argsLoop fuel tokens index args = PRes.ok res j →
        index ≤ j ∧ j < tokens.length)
  ∧ (∀ index ps res j, paramsLoop fuel tokens index ps = PRes.ok res j →
        index ≤ j ∧ j < tokens.length)
  ∧ (∀ index s j, parseReturn fuel tokens index = PRes.ok s j →
        index < j ∧ j ≤ tokens.length)
  ∧ (∀ index s j, parseLocal fuel tokens index = PRes.ok s j →
        index < j ∧ j ≤ tokens.length)
  ∧ (∀ index s j, parseExpressionStatement fuel tokens index = PRes.ok s j →
        index < j ∧ j ≤ tokens.length)
  ∧ (∀ index sts res j, bodyLoop fuel tokens index sts = PRes.ok res j →
        index ≤ j ∧ j < tokens.length)
  ∧ (∀ index s j, parseFunction fuel tokens index = PRes.ok s j →
        index < j ∧ j ≤ tokens.length)
  ∧ (∀ index s j, parseIf fuel tokens index = PRes.ok s j →
        index < j ∧ j ≤ tokens.length)
  ∧ (∀ index s j, parseStatement fuel tokens index = PRes.ok s j →
        index < j ∧ j ≤ tokens.length)) := by
  intro fuel
  induction fuel with
  | zero =>
    intro tokens
    refine ⟨?_, ?_, ?_, ?_, ?_, ?_, ?_, ?_, ?_, ?_⟩ <;> intro index <;> intros <;>
      simp_all [parseExpression, argsLoop, paramsLoop, parseReturn, parseLocal,
        parseExpressionStatement, bodyLoop, parseFunction, parseIf,
        parseStatement]
  | succ f ih =>
    intro tokens
    obtain ⟨ihPE, ihAL, ihPL, ihRet, ihLoc, ihES, ihBL, ihFun, ihIf, ihST⟩ :=
      ih tokens
    refine ⟨parseExpression_ok_bounds_step ihAL,
      argsLoop_ok_bounds_step ihPE ihAL,
      paramsLoop_ok_bounds_step ihPL,
      parseReturn_ok_bounds_step ihPE,
      parseLocal_ok_bounds_step ihPE,
      parseExpressionStatement_ok_bounds_step ihPE,
      bodyLoop_ok_bounds_step ihST ihBL,
      parseFunction_ok_bounds_step ihPL ihBL,
      parseIf_ok_bounds_step ihPE ihBL,
      parseStatement_ok_bounds_step ihIf ihES ihRet ihFun ihLoc⟩

theorem parseStatement_ok_bounds {fuel : Nat} {tokens : List Token} {index : Nat}
    {s : Statement} {j : Nat}
    (h : parseStatement fuel tokens index = PRes.ok s j) :
    index < j ∧ j ≤ tokens.length :=
  ((okBounds fuel tokens).2.2.2.2.2.2.2.2.2) index s j h

theorem parseLoop_ok_final : ∀ (fuel : Nat) (raw : List Char)
    (tokens : List Token) (index : Nat) (ast a : AST) (fin : Nat),
    index ≤ tokens.length →
    parseLoop fuel raw tokens index ast = ParseResult.ok a fin →
    fin = tokens.length := by
  intro fuel
  induction fuel with
  | zero =>
    intro raw tokens index ast a fin hle h
    simp only [parseLoop] at h
    cases h
  | succ f ih =>
    intro raw tokens index ast a fin hle h
    simp only [parseLoop] at h
    split at h
    next hidx =>
      split at h
      next stmt nxt heq =>
        have hb := parseStatement_ok_bounds heq
        exact ih raw tokens nxt _ a fin (by omega) h
      next =>
        split at h
        · cases h
        · cases h
      next => cases h
      next => cases h
    next hidx =>
      cases h
      omega

theorem parseExpression_keyword_none {f : Nat} {tokens : List Token}
    {index : Nat} {t : Token} (hget : tokens.get? index = Option.some t)
    (hkind : t.kind = TokenKind.Keyword) :
    parseExpression (Nat.succ f) tokens index = PRes.none := by
  have hg : tokens[index]? = Option.some t := by
    rw [← List.get?_eq_getElem?]
    exact hget
  have hid : expectIdentifier tokens index = false := by
    simp [expectIdentifier, hg, hkind]
  simp [parseExpression, hid]

theorem expectKeyword_false_of_value {tokens : List Token} {index : Nat}
    {t : Token} {v : String} (hget : tokens.get? index = Option.some t)
    (hv : t.value ≠ v) : expectKeyword tokens index v = false := by
  have hg : tokens[index]? = Option.some t := by
    rw [← List.get?_eq_getElem?]
    exact hget
  simp [expectKeyword, hg, hv]

theorem parseExpressionStatement_keyword_none {f : Nat} {tokens : List Token}
    {index : Nat} {t : Token} (hget : tokens.get? index = Option.some t)
    (hkind : t.kind = TokenKind.Keyword) :
    parseExpressionStatement (Nat.succ (Nat.succ f)) tokens index =
      PRes.none := by
  have hpe : parseExpression (Nat.succ f) tokens index = PRes.none :=
    parseExpression_keyword_none hget hkind
  have hlt : index < tokens.length := (List.get?_eq_some.mp hget).1
  simp [parseExpressionStatement, hpe, diagNone, hlt]

theorem parseIf_none_of_keyword_mismatch {f : Nat} {tokens : List Token}
    {index : Nat} (h : expectKeyword tokens index "if" = false) :
    parseIf (Nat.succ f) tokens index = PRes.none := by
  simp [parseIf, h]

theorem parseReturn_none_of_keyword_mismatch {f : Nat} {tokens : List Token}
    {index : Nat} (h : expectKeyword tokens index "return" = false) :
    parseReturn (Nat.succ f) tokens index = PRes.none := by
  simp [parseReturn, h]

theorem parseFunction_none_of_keyword_mismatch {f : Nat} {tokens : List Token}
    {index : Nat} (h : expectKeyword tokens index "function" = false) :
    parseFunction (Nat.succ f) tokens index = PRes.none := by
  simp [parseFunction, h]

theorem parseLocal_none_of_keyword_mismatch {f : Nat} {tokens : List Token}
    {index : Nat} (h : expectKeyword tokens index "local" = false) :
    parseLocal (Nat.succ f) tokens index = PRes.none := by
  simp [parseLocal, h]

theorem paramsLoop_succ_eq_step (f : Nat) (tokens : List Token)
    (next_index : Nat) (parameters : List Token) :
    paramsLoop (Nat.succ f) tokens next_index parameters =
      (match paramsStep tokens next_index parameters with
       | ParamsStep.exit ps k => PRes.ok ps k
       | ParamsStep.again k ps => paramsLoop f tokens k ps
       | ParamsStep.bail => PRes.none
       | ParamsStep.oob => PRes.panic) := by
  cases h1 : expectSyntaxTok tokens next_index ")" with
  | true => simp [paramsLoop, paramsStep, h1]
  | false =>
    by_cases h2 : parameters.length > 0
    · cases h3 : expectSyntaxTok tokens next_index "," with
      | false =>
        by_cases h5 : next_index < tokens.length
        · simp [paramsLoop, paramsStep, diagNone, h1, h2, h3, h5]
        · simp [paramsLoop, paramsStep, diagNone, h1, h2, h3, h5]
      | true =>
        cases h4 : tokens[next_index + 1]? with
        | some t => simp [paramsLoop, paramsStep, h1, h2, h3, h4]
        | none => simp [paramsLoop, paramsStep, h1, h2, h3, h4]
    · cases h4 : tokens[next_index]? with
      | some t => simp [paramsLoop, paramsStep, h1, h2, h4]
      | none => simp [paramsLoop, paramsStep, h1, h2, h4]

/-- C6 (amended): once a statement rule commits past its leading keyword, a
subsequent expectation failure is never reinterpreted as another
production's success: at a position holding a keyword token, the statement
dispatcher's outcome IS the outcome of that keyword's own rule (every other
rule is a non-match there), so a committed rule's failure propagates to the
driver — as Err when the failing rule's diagnostic token index is in
bounds, and as the diagnostic's own out-of-bounds fault otherwise (see the
counterexample: the claim's stronger "always returns Err" fails on the
one-token program `return`). -/
theorem c6_committed_rule_owns_dispatcher_outcome :
    ∀ (fuel : Nat) (tokens : List Token) (index : Nat) (t : Token),
      tokens.get? index = Option.some t → t.kind = TokenKind.Keyword →
      ((t.value = "if" →
          parseStatement (fuel + 3) tokens index =
            parseIf (fuel + 2) tokens index)
       ∧ (t.value = "return" →
          parseStatement (fuel + 3) tokens index =
            parseReturn (fuel + 2) tokens index)
       ∧ (t.value = "function" →
          parseStatement (fuel + 3) tokens index =
            parseFunction (fuel + 2) tokens index)
       ∧ (t.value = "local" →
          parseStatement (fuel + 3) tokens index =
            parseLocal (fuel + 2) tokens index)) := by
  intro fuel tokens index t hget hkind
  have hES : parseExpressionStatement (fuel + 2) tokens index = PRes.none :=
    parseExpressionStatement_keyword_none hget hkind
  refine ⟨?_, ?_, ?_, ?_⟩
  · intro hv
    have hRet : parseReturn (fuel + 2) tokens index = PRes.none :=
      parseReturn_none_of_keyword_mismatch
        (expectKeyword_false_of_value hget (by rw [hv]; decide))
    have hFun : parseFunction (fuel + 2) tokens index = PRes.none :=
      parseFunction_none_of_keyword_mismatch
        (expectKeyword_false_of_value hget (by rw [hv]; decide))
    have hLoc : parseLocal (fuel + 2) tokens index = PRes.none :=
      parseLocal_none_of_keyword_mismatch
        (expectKeyword_false_of_value hget (by rw [hv]; decide))
    show parseStatement (Nat.succ (fuel + 2)) tokens index =
      parseIf (fuel + 2) tokens index
    simp only [parseStatement]
    cases hIf : parseIf (fuel + 2) tokens index with
    | ok a b => rfl
    | none => rw [hES, hRet, hFun, hLoc]
    | panic => rfl
    | fail => rfl
  · intro hv
    have hIf : parseIf (fuel + 2) tokens index = PRes.none :=
      parseIf_none_of_keyword_mismatch
        (expectKeyword_false_of_value hget (by rw [hv]; decide))
    have hFun : parseFunction (fuel + 2) tokens index = PRes.none :=
      parseFunction_none_of_keyword_mismatch
        (expectKeyword_false_of_value hget (by rw [hv]; decide))
    have hLoc : parseLocal (fuel + 2) tokens index = PRes.none :=
      parseLocal_none_of_keyword_mismatch
        (expectKeyword_false_of_value hget (by rw [hv]; decide))
    show parseStatement (Nat.succ (fuel + 2)) tokens index =
      parseReturn (fuel + 2) tokens index
    simp only [parseStatement]
    rw [hIf, hES]
    cases hRet : parseReturn (fuel + 2) tokens index with
    | ok a b => rfl
    | none => rw [hFun, hLoc]
    | panic => rfl
    | fail => rfl
  · intro hv
    have hIf : parseIf (fuel + 2) tokens index = PRes.none :=
      parseIf_none_of_keyword_mismatch
        (expectKeyword_false_of_value hget (by rw [hv]; decide))
    have hRet : parseReturn (fuel + 2) tokens index = PRes.none :=
      parseReturn_none_of_keyword_mismatch
        (expectKeyword_false_of_value hget (by rw [hv]; decide))
    have hLoc : parseLocal (fuel + 2) tokens index = PRes.none :=
      parseLocal_none_of_keyword_mismatch
        (expectKeyword_false_of_value hget (by rw [hv]; decide))
    show parseStatement (Nat.succ (fuel + 2)) tokens index =
      parseFunction (fuel + 2) tokens index
    simp only [parseStatement]
    rw [hIf, hES, hRet]
    cases hFun : parseFunction (fuel + 2) tokens index with
    | ok a b => rfl
    | none => rw [hLoc]
    | panic => rfl
    | fail => rfl
  · intro hv
    have hIf : parseIf (fuel + 2) tokens index = PRes.none :=
      parseIf_none_of_keyword_mismatch
        (expectKeyword_false_of_value hget (by rw [hv]; decide))
    have hRet : parseReturn (fuel + 2) tokens index = PRes.none :=
      parseReturn_none_of_keyword_mismatch
        (expectKeyword_false_of_value hget (by rw [hv]; decide))
    have hFun : parseFunction (fuel + 2) tokens index = PRes.none :=
      parseFunction_none_of_keyword_mismatch
        (expectKeyword_false_of_value hget (by rw [hv]; decide))
    show parseStatement (Nat.succ (fuel + 2)) tokens index =
      parseLocal (fuel + 2) tokens index
    simp only [parseStatement]
    rw [hIf, hES, hRet, hFun]


/-- C1: the claim states that a Number token is accepted as an expression
start by parse_expression, so that `local x 5;` and `return foo(1, 2);`
parse.  The code's guard on parse.rs line 101 is
`!expect_identifier(..) || expect_number(..)`, which rejects every Number
token (leaving the Number arm of the literal match on line 106 dead): a
Number at the expression position yields not-an-expression, and both spec
scenarios end in a parse error. -/
theorem c1_number_rejected_as_expression_start :
    parseExpression 5 [numT "5"] 0 = PRes.none
  ∧ (parse 20 [] [kwT "local", idT "x", numT "5", synT ";"]).isErr = true
  ∧ (parse 30 [] [kwT "return", idT "foo", synT "(", numT "1", synT ",",
      numT "2", synT ")", synT ";"]).isErr = true :=
  ⟨rfl, rfl, rfl⟩

/-- C2: the claim states that after the operator, an Identifier or Number
right operand yields a BinaryOperation.  The code's right-operand check on
parse.rs line 150 is `!expect_identifier(..) || !expect_number(..)`, which
is true for every token (no token is both an Identifier and a Number), so
the binary-operation path always errors (the match on lines 155-158 is
dead): `a == b` is rejected and the spec's if-scenario ends in a parse
error. -/
theorem c2_binary_operation_right_operand_always_rejected :
    parseExpression 5 [idT "a", synT "==", idT "b"] 0 = PRes.none
  ∧ parseExpression 5 [idT "a", synT "+", numT "1"] 0 = PRes.none
  ∧ (parse 30 [] [kwT "if", idT "a", synT "==", idT "b", kwT "then",
      kwT "return", idT "a", synT ";", kwT "end"]).isErr = true :=
  ⟨rfl, rfl, rfl⟩

/-- C3: the claim states that the parameter-collection loop of
parse_function advances its cursor on every iteration.  The iteration that
collects the first parameter of `function f(a) end` (loop state: cursor 3,
no parameters yet) pushes the parameter and continues with the SAME cursor
3 (the skip-past-parameter increment is missing in parse.rs lines 184-195),
after which the comma check at the unchanged cursor fails and the whole
parse of the declaration terminates in an error. -/
theorem c3_param_loop_iteration_does_not_advance :
    paramsStep [kwT "function", idT "f", synT "(", idT "a", synT ")",
      kwT "end"] 3 [] = ParamsStep.again 3 [idT "a"]
  ∧ (parse 30 [] [kwT "function", idT "f", synT "(", idT "a", synT ")",
      kwT "end"]).isErr = true :=
  ⟨rfl, rfl⟩

/-- C4: the claim states that `function add(a, b) return a + b; end` yields
one FunctionDeclaration with parameters [a, b].  Because the parameter loop
never advances past a pushed parameter (parse.rs lines 184-195), the parse
of that token sequence fails with an error instead; a declaration with zero
parameters and an empty body still parses (second conjunct), so the claim
holds only for N = 0. -/
theorem c4_function_declaration_with_params_errs :
    (parse 40 [] [kwT "function", idT "add", synT "(", idT "a", synT ",",
      idT "b", synT ")", kwT "return", idT "a", synT "+", idT "b", synT ";",
      kwT "end"]).isErr = true
  ∧ parse 30 [] [kwT "function", idT "f", synT "(", synT ")", kwT "end"] =
      ParseResult.ok [Statement.FunctionDeclaration (idT "f") [] []] 5 :=
  ⟨rfl, rfl⟩

/-- C5: the claim states that parse never accesses a token at an index at or
beyond the end of the sequence and returns Err instead.  On the single-token
program `a`, the binary-operation diagnostic of parse_expression (parse.rs
line 143) evaluates `tokens[1]` on a length-1 sequence, and on the
single-token program `function`, the function-name diagnostic (line 171)
evaluates `tokens[1]`: both are out-of-bounds accesses (Rust panics), not
Err. -/
theorem c5_oob_token_access_panics :
    parse 10 [] [idT "a"] = ParseResult.panic
  ∧ parse 10 [] [kwT "function"] = ParseResult.panic :=
  ⟨rfl, rfl⟩

/-- C6 counterexample: on the single-token program `return`, parse_return
commits past its leading keyword and the expected-expression diagnostic
(parse.rs line 229) evaluates `tokens[1]` out of bounds, so the entire parse
panics rather than returning Err as the claim states. -/
theorem c6_counterexample_committed_failure_panics :
    parse 10 [] [kwT "return"] = ParseResult.panic
  ∧ (parse 10 [] [kwT "return"]).isErr = false :=
  ⟨rfl, rfl⟩

/-- C6 witness: at the concrete one-token program `if`, where parse_if
commits and then fails (with an out-of-bounds diagnostic), the dispatcher's
outcome is exactly parse_if's outcome. -/
theorem c6_committed_rule_owns_dispatcher_outcome_witness :
    parseStatement 3 [kwT "if"] 0 = parseIf 2 [kwT "if"] 0 :=
  (c6_committed_rule_owns_dispatcher_outcome 0 [kwT "if"] 0 (kwT "if")
    rfl rfl).1 rfl

/-- C7: total consumption — whenever the top-level driver returns Ok, the
final value of its cursor equals the token-sequence length, and no statement
production returns a position exceeding the sequence length. -/
theorem c7_total_consumption :
    (∀ (fuel : Nat) (raw : List Char) (tokens : List Token) (a : AST)
        (fin : Nat),
        parse fuel raw tokens = ParseResult.ok a fin → fin = tokens.length)
  ∧ (∀ (fuel : Nat) (tokens : List Token) (index : Nat) (s : Statement)
        (j : Nat),
        parseStatement fuel tokens index = PRes.ok s j →
          j ≤ tokens.length) := by
  constructor
  · intro fuel raw tokens a fin h
    exact parseLoop_ok_final fuel raw tokens 0 [] a fin (Nat.zero_le _) h
  · intro fuel tokens index s j h
    exact (parseStatement_ok_bounds h).2

/-- C7 witness: the four-token program `f();` parses to one expression
statement with final cursor 4, which is the sequence length. -/
theorem c7_total_consumption_witness :
    (4 : Nat) = [idT "f", synT "(", synT ")", synT ";"].length :=
  c7_total_consumption.1 20 [] [idT "f", synT "(", synT ")", synT ";"]
    [Statement.Expression (Expression.FunctionCall (idT "f") [])] 4 rfl

/-- C8: monotonic progress — every rule parser that returns a success
returns a position strictly greater than its input position. -/
theorem c8_monotonic_progress :
    ∀ (fuel : Nat) (tokens : List Token) (index : Nat),
      (∀ e j, parseExpression fuel tokens index = PRes.ok e j → index < j)
    ∧ (∀ s j, parseIf fuel tokens index = PRes.ok s j → index < j)
    ∧ (∀ s j, parseReturn fuel tokens index = PRes.ok s j → index < j)
    ∧ (∀ s j, parseLocal fuel tokens index = PRes.ok s j → index < j)
    ∧ (∀ s j, parseFunction fuel tokens index = PRes.ok s j → index < j)
    ∧ (∀ s j, parseExpressionStatement fuel tokens index = PRes.ok s j →
        index < j)
    ∧ (∀ s j, parseStatement fuel tokens index = PRes.ok s j → index < j) := by
  intro fuel tokens index
  obtain ⟨hPE, hAL, hPL, hRet, hLoc, hES, hBL, hFun, hIf, hST⟩ :=
    okBounds fuel tokens
  exact ⟨fun e j h => (hPE index e j h).1,
    fun s j h => (hIf index s j h).1,
    fun s j h => (hRet index s j h).1,
    fun s j h => (hLoc index s j h).1,
    fun s j h => (hFun index s j h).1,
    fun s j h => (hES index s j h).1,
    fun s j h => (hST index s j h).1⟩

/-- C8 witness: parse_expression succeeds on the call `f()` starting at
position 0 and returns position 3 > 0. -/
theorem c8_monotonic_progress_witness : (0 : Nat) < 3 :=
  (c8_monotonic_progress 5 [idT "f", synT "(", synT ")"] 0).1
    (Expression.FunctionCall (idT "f") []) 3 rfl

/-- C9: the empty token sequence parses successfully to an empty statement
list (with final cursor 0). -/
theorem c9_empty_parse :
    ∀ (fuel : Nat) (raw : List Char),
      parse (fuel + 1) raw [] = ParseResult.ok [] 0 := by
  intro fuel raw
  rfl

/-- C10: parse is deterministic — equal source buffers and equal token
sequences yield structurally identical results (the embedding is a pure
function of its inputs). -/
theorem c10_deterministic :
    ∀ (fuel : Nat) (raw1 raw2 : List Char) (tokens1 tokens2 : List Token),
      raw1 = raw2 → tokens1 = tokens2 →
      parse fuel raw1 tokens1 = parse fuel raw2 tokens2 := by
  intro fuel raw1 raw2 tokens1 tokens2 h1 h2
  rw [h1, h2]

/-- C10 witness: two invocations on the same concrete buffer and token
sequence agree. -/
theorem c10_deterministic_witness :
    parse 3 ['x'] [idT "a"] = parse 3 ['x'] [idT "a"] :=
  c10_deterministic 3 ['x'] ['x'] [idT "a"] [idT "a"] rfl rfl

end Lust
